import Mathlib

/-
Verification of the Ask-the-video transcript acquisition and cross-context
state synchronization subsystem.

The development shallowly embeds:
  - the YouTube content script (URL detection, extraction lifecycle,
    mutation-observer navigation handling, message handlers);
  - the background transcript handler (per-tab transcript and chat-history
    stores, message dispatch, tab cleanup);
  - the caption track selector (modelled from the design document, since its
    defining file youtubeTranscript.ts is not among the provided sources).

Stateful code becomes explicit state passing: each execution context is a
step function from events to a new state plus a list of observable actions
(network fetch starts, one-shot messages, responses). Traces are lists of
events processed by a fold; temporal claims become statements about all
traces of a given shape.
-/

namespace AskTheVideo

/-! ## URL model

The content script reads window.location (hostname, pathname, search) and
compares location.href for navigation detection. A Url value stands for one
location; href comparison is component-wise equality. -/

structure Url where
  hostname : String
  pathname : String
  search : String
deriving DecidableEq, Repr

/-- Character-list test that the first list is a prefix of the second
(helper for the substring and language-prefix checks; implemented by
structural recursion so that concrete instances evaluate). -/
def listStartsWith : List Char → List Char → Bool
  | [], _ => true
  | _ :: _, [] => false
  | p :: ps, c :: cs => p == c && listStartsWith ps cs

/-- Character-list substring test (helper for strIncludes). -/
def listContainsSub (pat : List Char) : List Char → Bool
  | [] => listStartsWith pat []
  | c :: cs => listStartsWith pat (c :: cs) || listContainsSub pat cs

/-- Embedding of the JavaScript string method includes: true when the pattern
occurs as a substring (used by the source only with the pattern "v="). -/
def strIncludes (s pat : String) : Bool :=
  listContainsSub pat.data s.data

/-- Split a character list on a separator character (helper for query string
parsing). -/
def splitOnChar (sep : Char) : List Char → List (List Char)
  | [] => [[]]
  | c :: cs =>
    match splitOnChar sep cs with
    | [] => [[c]]
    | g :: gs => if c == sep then [] :: g :: gs else (c :: g) :: gs

/-- Join character lists with a separator character (helper for query string
parsing). -/
def joinWithChar (sep : Char) : List (List Char) → List Char
  | [] => []
  | [g] => g
  | g :: gs => g ++ sep :: joinWithChar sep gs

/-- Embedding of new URLSearchParams(search).get(key): strips a leading
question mark, splits the query on ampersands, and returns the value of the
first pair whose key matches (the part after the first equals sign;
percent-decoding is not modelled, no claim depends on it). -/
def searchParamsGet (search key : String) : Option String :=
  let cs :=
    match search.data with
    | '?' :: rest => rest
    | other => other
  (splitOnChar '&' cs).findSome? fun p =>
    match splitOnChar '=' p with
    | [] => none
    | k :: rest =>
      if k = key.data then some (String.mk (joinWithChar '=' rest)) else none

/-- Embedding of isYouTubeVideoPage from the content script: hostname is
www.youtube.com, pathname is /watch, and the query string contains "v=". -/
def isYouTubeVideoPage (u : Url) : Bool :=
  u.hostname == "www.youtube.com" && u.pathname == "/watch" &&
    strIncludes u.search "v="

/-- Embedding of getVideoId from the content script: the v parameter of the
query string, if present. -/
def getVideoId (u : Url) : Option String :=
  searchParamsGet u.search "v"

/-! ## Transcript data model

The TranscriptResult type is defined in youtubeTranscript.ts, which is
imported by the provided sources but not itself provided. Modelled from the
spec: a tagged outcome, either Success with videoId, ordered transcript
segments and metadata, or Failure with an error string; the shape matches
every use in the provided files (result.success, result.error,
result.videoId, result.transcript, result.metadata). -/

structure VideoMetadata where
  title : Option String
  channelName : Option String
deriving DecidableEq, Repr

structure TranscriptSegment where
  startSeconds : Rat
  durationSeconds : Rat
  text : String
deriving DecidableEq, Repr

inductive TranscriptResult where
  | success (videoId : String) (transcript : List TranscriptSegment)
      (metadata : VideoMetadata)
  | failure (error : String)
deriving DecidableEq, Repr

/-- The success flag of a tagged result (result.success in the source). -/
def TranscriptResult.isSuccess : TranscriptResult → Bool
  | .success _ _ _ => true
  | .failure _ => false

/-- The videoId field of a tagged result; undefined (none) on failure. -/
def TranscriptResult.videoIdField : TranscriptResult → Option String
  | .success v _ _ => some v
  | .failure _ => none

/-- The error field of a tagged result; undefined (none) on success. -/
def TranscriptResult.errorField : TranscriptResult → Option String
  | .success _ _ _ => none
  | .failure e => some e

/-! ## Content script (page context)

Module-level mutable state of the content script: currentVideoId and
transcriptCache, plus the observer variable lastUrl and the current
location. pending counts extraction timeouts that have been scheduled by
setTimeout but have not fired yet; inflight records, for each extraction
whose network fetch has started but not resolved, the videoId that
extractAndSendTranscript read from the URL before awaiting. -/

structure ContentState where
  currentVideoId : Option String
  transcriptCache : Option TranscriptResult
  lastUrl : Url
  url : Url
  pending : Nat
  inflight : List (Option String)
deriving DecidableEq, Repr

/-- Response object sent by sendResponse for a getTranscript request. -/
structure GetTranscriptResponse where
  success : Bool
  data : Option TranscriptResult
  error : Option String
deriving DecidableEq, Repr

/-- Observable actions of the content script: starting a transcript network
fetch, the one-shot messages of the sync protocol, and responses to
request/response queries. sendNoVideoPage is the noVideoPage message kind
declared in WorkerMessageTypes; it is listed here so that statements about
its (non-)emission can be made. -/
inductive Action where
  | fetchStart (videoId : Option String)
  | sendTranscriptLoaded (payload : TranscriptResult)
  | sendTranscriptError (error : Option String)
  | sendNoVideoPage
  | respond (r : GetTranscriptResponse)
deriving DecidableEq, Repr

/-- Embedding of the synchronous prefix of extractAndSendTranscript: read the
videoId from the current URL; if it equals currentVideoId and a cached result
exists, return using the cache (no fetch, no message, no state change);
otherwise start the extraction fetch, remembering the videoId read before the
await. -/
def extractAndSendTranscriptStart (s : ContentState) : ContentState × List Action :=
  let videoId := getVideoId s.url
  if videoId = s.currentVideoId ∧ s.transcriptCache ≠ none then
    (s, [])
  else
    ({ s with inflight := s.inflight ++ [videoId] }, [Action.fetchStart videoId])

/-- Embedding of the continuation of extractAndSendTranscript after the
awaited extractVideoTranscript resolves with a tagged result (per the spec it
never throws past this boundary): cache the result under the videoId read
before the await, then send transcriptLoaded on success or transcriptError on
failure. The result is cached whether it is a Success or a Failure. -/
def extractionResolve (videoId : Option String) (result : TranscriptResult)
    (s : ContentState) : ContentState × List Action :=
  ({ s with currentVideoId := videoId, transcriptCache := some result },
    if result.isSuccess then [Action.sendTranscriptLoaded result]
    else [Action.sendTranscriptError result.errorField])

/-- Embedding of the MutationObserver callback: compare the current location
against lastUrl; on a change to a qualifying watch page, clear
currentVideoId and transcriptCache immediately and schedule an extraction
timeout; on a change to a non-qualifying page, clear both and do nothing
else (the source sends no message in this branch). -/
def observerTick (u : Url) (s : ContentState) : ContentState × List Action :=
  if u = s.lastUrl then
    ({ s with url := u }, [])
  else if isYouTubeVideoPage u = true then
    ({ s with
        url := u
        lastUrl := u
        currentVideoId := none
        transcriptCache := none
        pending := s.pending + 1 }, [])
  else
    ({ s with
        url := u
        lastUrl := u
        currentVideoId := none
        transcriptCache := none }, [])

/-- Embedding of the getTranscript branch of the onMessage listener: answer
from transcriptCache when present, else an explicit unavailable response. -/
def handleGetTranscript (s : ContentState) : GetTranscriptResponse :=
  match s.transcriptCache with
  | some cached => { success := true, data := some cached, error := none }
  | none => { success := false, data := none, error := some "No transcript available" }

/-- Events of the page context: a mutation-observer tick reading location u,
a scheduled extraction timeout firing, an in-flight extraction (index i into
inflight) resolving with a tagged result, and a getTranscript query from the
panel. -/
inductive Event where
  | tick (u : Url)
  | fire
  | resolve (i : Nat) (result : TranscriptResult)
  | query
deriving DecidableEq, Repr

/-- One step of the page context event loop. -/
def step (e : Event) (s : ContentState) : ContentState × List Action :=
  match e with
  | .tick u => observerTick u s
  | .fire =>
    match s.pending with
    | 0 => (s, [])
    | n + 1 => extractAndSendTranscriptStart { s with pending := n }
  | .resolve i result =>
    match s.inflight[i]? with
    | some videoId =>
        extractionResolve videoId result { s with inflight := s.inflight.eraseIdx i }
    | none => (s, [])
  | .query => (s, [Action.respond (handleGetTranscript s)])

/-- Run a trace of events, accumulating the emitted actions. -/
def run (s : ContentState) : List Event → ContentState × List Action
  | [] => (s, [])
  | e :: es =>
    let p := step e s
    let q := run p.1 es
    (q.1, p.2 ++ q.2)

/-- State after initializeContentScript on a page with location u: empty
cache, and one extraction timeout scheduled when the page qualifies. -/
def initState (u : Url) : ContentState :=
  { currentVideoId := none, transcriptCache := none, lastUrl := u, url := u,
    pending := if isYouTubeVideoPage u = true then 1 else 0, inflight := [] }

/-- The videoIds of the fetch invocations among a list of actions. -/
def fetchVids (acts : List Action) : List (Option String) :=
  acts.filterMap fun a =>
    match a with
    | .fetchStart v => some v
    | _ => none

/-- Number of transcript fetch invocations among a list of actions. -/
def countFetch (acts : List Action) : Nat :=
  (fetchVids acts).length

/-! ## Background script (persistent context)

transcript-handler.ts keeps two module-level maps keyed by tab id: the
transcript store and the chat history store. Maps are embedded as functions
from tab ids to optional values. -/

/-- Map update (Map.prototype.set). -/
def mapSet {V : Type} (m : Nat → Option V) (k : Nat) (v : V) : Nat → Option V :=
  fun q => if q = k then some v else m q

/-- Map removal (Map.prototype.delete). -/
def mapDelete {V : Type} (m : Nat → Option V) (k : Nat) : Nat → Option V :=
  fun q => if q = k then none else m q

inductive Role where
  | user
  | assistant
deriving DecidableEq, Repr

structure ChatMessage where
  role : Role
  content : String
  timestamp : Nat
deriving DecidableEq, Repr

structure BackgroundState where
  transcriptStore : Nat → Option TranscriptResult
  chatHistoryStore : Nat → Option (List ChatMessage)

/-- Messages dispatched by the background onMessage listener. -/
inductive BgMessage where
  | transcriptLoaded (payload : TranscriptResult)
  | transcriptError (error : Option String)
  | getTranscript
  | sendChatMessage (question : String)
  | chatResponse (response : String)
deriving DecidableEq, Repr

/-- Observable actions of the background script: best-effort forwards to the
side panel, responses to request/response queries, and the chat-history
clearing side effect (the delete performed on a new-video transition). -/
inductive BgAction where
  | forwardTranscriptLoaded (payload : TranscriptResult)
  | forwardTranscriptError (error : Option String)
  | respond (r : GetTranscriptResponse)
  | clearChatHistory (tabId : Nat)
deriving DecidableEq, Repr

/-- Embedding of the transcriptLoaded case: requires a sender tab; detects a
new video by comparing the stored videoId for the tab with the incoming one
(optional chaining: a missing previous entry compares as undefined), replaces
the stored transcript, deletes the chat history on a new-video transition
when one exists, and forwards the payload to the panel. -/
def handleBgTranscriptLoaded (tabId : Option Nat) (payload : TranscriptResult)
    (bg : BackgroundState) : BackgroundState × List BgAction :=
  match tabId with
  | none => (bg, [])
  | some t =>
    let previousTranscript := bg.transcriptStore t
    let isNewVideo :=
      previousTranscript.bind TranscriptResult.videoIdField ≠ payload.videoIdField
    let store1 := mapSet bg.transcriptStore t payload
    if isNewVideo ∧ (bg.chatHistoryStore t).isSome = true then
      ({ transcriptStore := store1, chatHistoryStore := mapDelete bg.chatHistoryStore t },
        [BgAction.clearChatHistory t, BgAction.forwardTranscriptLoaded payload])
    else
      ({ transcriptStore := store1, chatHistoryStore := bg.chatHistoryStore },
        [BgAction.forwardTranscriptLoaded payload])

/-- Embedding of the transcriptError case: log and forward the error to the
panel; neither store is touched. -/
def handleBgTranscriptError (error : Option String) (bg : BackgroundState) :
    BackgroundState × List BgAction :=
  (bg, [BgAction.forwardTranscriptError error])

/-- Embedding of the getTranscript case: answer from the transcript store for
the active tab, else an explicit unavailable response. -/
def handleBgGetTranscript (activeTab : Option Nat) (bg : BackgroundState) :
    GetTranscriptResponse :=
  match activeTab with
  | some t =>
    if (bg.transcriptStore t).isSome = true then
      { success := true, data := bg.transcriptStore t, error := none }
    else
      { success := false, data := none,
        error := some "No transcript available for current tab" }
  | none =>
      { success := false, data := none,
        error := some "No transcript available for current tab" }

/-- Embedding of the sendChatMessage case: append the user message to the
chat history of the active tab (now is the Date.now() timestamp). -/
def handleBgSendChatMessage (activeTab : Option Nat) (question : String)
    (now : Nat) (bg : BackgroundState) : BackgroundState × List BgAction :=
  match activeTab with
  | none => (bg, [])
  | some t =>
    let history := (bg.chatHistoryStore t).getD []
    ({ bg with
        chatHistoryStore := mapSet bg.chatHistoryStore t
          (history ++ [{ role := Role.user, content := question, timestamp := now }]) },
      [])

/-- Embedding of the chatResponse case: append the assistant message to the
chat history of the active tab. -/
def handleBgChatResponse (activeTab : Option Nat) (response : String)
    (now : Nat) (bg : BackgroundState) : BackgroundState × List BgAction :=
  match activeTab with
  | none => (bg, [])
  | some t =>
    let history := (bg.chatHistoryStore t).getD []
    ({ bg with
        chatHistoryStore := mapSet bg.chatHistoryStore t
          (history ++ [{ role := Role.assistant, content := response, timestamp := now }]) },
      [])

/-- Embedding of the chrome.tabs.onRemoved listener: delete both per-tab
entries for the closed tab. -/
def handleTabRemoved (t : Nat) (bg : BackgroundState) : BackgroundState :=
  { transcriptStore := mapDelete bg.transcriptStore t,
    chatHistoryStore := mapDelete bg.chatHistoryStore t }

/-- Events of the background context: an incoming runtime message (with the
id of the sender tab when the sender is a content script, the currently
active tab as seen by chrome.tabs.query, and the current time), or a tab
being closed. -/
inductive BgEvent where
  | onMessage (sender : Option Nat) (activeTab : Option Nat) (now : Nat) (msg : BgMessage)
  | tabRemoved (t : Nat)

/-- One step of the background event loop. -/
def stepBg (e : BgEvent) (bg : BackgroundState) : BackgroundState × List BgAction :=
  match e with
  | .onMessage sender activeTab now msg =>
    match msg with
    | .transcriptLoaded payload => handleBgTranscriptLoaded sender payload bg
    | .transcriptError error => handleBgTranscriptError error bg
    | .getTranscript => (bg, [BgAction.respond (handleBgGetTranscript activeTab bg)])
    | .sendChatMessage q => handleBgSendChatMessage activeTab q now bg
    | .chatResponse r => handleBgChatResponse activeTab r now bg
  | .tabRemoved t => (handleTabRemoved t bg, [])

/-- Run a trace of background events, accumulating the emitted actions. -/
def runBg (bg : BackgroundState) : List BgEvent → BackgroundState × List BgAction
  | [] => (bg, [])
  | e :: es =>
    let p := stepBg e bg
    let q := runBg p.1 es
    (q.1, p.2 ++ q.2)

/-- Embedding of the exported helper getTranscriptForCurrentTab: the stored
transcript of the active tab when present, else null. -/
def getTranscriptForCurrentTab (activeTab : Option Nat) (bg : BackgroundState) :
    Option TranscriptResult :=
  match activeTab with
  | some t =>
    if (bg.transcriptStore t).isSome = true then bg.transcriptStore t else none
  | none => none

/-- Embedding of the exported helper getChatHistoryForCurrentTab: the stored
chat history of the active tab when present, else the empty list. -/
def getChatHistoryForCurrentTab (activeTab : Option Nat) (bg : BackgroundState) :
    List ChatMessage :=
  match activeTab with
  | some t =>
    if (bg.chatHistoryStore t).isSome = true then (bg.chatHistoryStore t).getD []
    else []
  | none => []

/-! ## Caption track selector

Modelled from the spec: the Track Selector of youtubeTranscript.ts, which is
imported by the provided sources but not itself provided. Per the design
document the selector applies a deterministic ranking evaluated in priority
order: (1) manually-created captions rank above auto-generated ones; (2)
among tracks of the same manual status, an exact English language code ranks
above an English-family prefix match, which ranks above other languages; (3)
otherwise the first-listed track wins (stable order). Selecting from an
empty list fails. -/

structure CaptionTrack where
  languageCode : String
  isAutoGenerated : Bool
  baseUrl : String
  trackName : String
deriving DecidableEq, Repr

/-- Modelled from the spec: the rank of a track under the selection policy,
lower is better. Auto-generated status dominates (weight 3); within the same
status, exact code "en" scores 0, an "en" prefix match scores 1, any other
language scores 2. -/
def trackRank (t : CaptionTrack) : Nat :=
  (if t.isAutoGenerated = true then 3 else 0) +
    (if t.languageCode = "en" then 0
     else if listStartsWith "en".data t.languageCode.data = true then 1 else 2)

/-- Modelled from the spec: keep the strictly better of two candidates, the
earlier one on ties (stable order). -/
def pickBetter (best c : CaptionTrack) : CaptionTrack :=
  if trackRank c < trackRank best then c else best

/-- Modelled from the spec: the Track Selector, a stable minimum of the
candidate list under the ranking policy; none on an empty list. -/
def selectTrack : List CaptionTrack → Option CaptionTrack
  | [] => none
  | t :: ts => some (ts.foldl pickBetter t)

/-! ## Concrete fixtures for witnesses and counterexamples -/

/-- A qualifying watch page for video X. -/
def urlWatchX : Url :=
  { hostname := "www.youtube.com", pathname := "/watch", search := "?v=X" }

/-- The same video X with an added timestamp parameter: a different URL
carrying the same video identifier. -/
def urlWatchXT5 : Url :=
  { hostname := "www.youtube.com", pathname := "/watch", search := "?v=X&t=5" }

/-- A qualifying watch page for video A. -/
def urlWatchA : Url :=
  { hostname := "www.youtube.com", pathname := "/watch", search := "?v=A" }

/-- A qualifying watch page for video B. -/
def urlWatchB : Url :=
  { hostname := "www.youtube.com", pathname := "/watch", search := "?v=B" }

/-- The YouTube home page: not a watch page. -/
def urlHome : Url :=
  { hostname := "www.youtube.com", pathname := "/", search := "" }

/-- A page outside YouTube entirely. -/
def urlGoogle : Url :=
  { hostname := "www.google.com", pathname := "/", search := "" }

/-- A successful extraction result for video X. -/
def resultX : TranscriptResult :=
  .success "X" [{ startSeconds := 0, durationSeconds := 5, text := "Hello" }]
    { title := some "T", channelName := some "C" }

/-- A successful extraction result for video A. -/
def resultA : TranscriptResult :=
  .success "A" [] { title := some "Video A", channelName := none }

/-- A content script state that has cached the result for video X while on
the watch page for X. -/
def stateCachedX : ContentState :=
  { currentVideoId := some "X", transcriptCache := some resultX,
    lastUrl := urlWatchX, url := urlWatchX, pending := 0, inflight := [] }

/-- A content script state with no cached result. -/
def stateNoCache : ContentState :=
  { currentVideoId := none, transcriptCache := none, lastUrl := urlHome,
    url := urlHome, pending := 0, inflight := [] }

/-- Successful stored result for video OLD (background fixtures). -/
def resultOld : TranscriptResult :=
  .success "OLD" [] { title := some "Old video", channelName := none }

/-- Successful stored result for video NEW (background fixtures). -/
def resultNew : TranscriptResult :=
  .success "NEW" [] { title := some "New video", channelName := none }

/-- A background state whose transcript store holds the OLD result for
tab 1 and whose chat history store is empty. -/
def bgWithOld : BackgroundState :=
  { transcriptStore := mapSet (fun _ => none) 1 resultOld,
    chatHistoryStore := fun _ => none }

/-- A one-message chat history. -/
def chatOld : List ChatMessage :=
  [{ role := Role.user, content := "What is this video about", timestamp := 5 }]

/-- A background state where tab 3 stores the OLD transcript and a chat
history. -/
def bgTab3 : BackgroundState :=
  { transcriptStore := mapSet (fun _ => none) 3 resultOld,
    chatHistoryStore := mapSet (fun _ => none) 3 chatOld }

/-- A background state where tab 7 stores a transcript and a chat history. -/
def bgTab7 : BackgroundState :=
  { transcriptStore := mapSet (fun _ => none) 7 resultX,
    chatHistoryStore := mapSet (fun _ => none) 7 chatOld }

/-- A manually-created English caption track. -/
def trackEnManual : CaptionTrack :=
  { languageCode := "en", isAutoGenerated := false, baseUrl := "u1",
    trackName := "English" }

/-- An auto-generated Spanish caption track. -/
def trackEsAuto : CaptionTrack :=
  { languageCode := "es", isAutoGenerated := true, baseUrl := "u2",
    trackName := "Spanish (auto-generated)" }

/-! ## Claims about the content script: cache idempotence and queries -/

/-- Claim C3: calling extractAndSendTranscript when the videoId in the URL
equals the cached currentVideoId and transcriptCache is non-null is a no-op:
no network fetch, no message, and currentVideoId and transcriptCache (the
whole state) unchanged, so repeated close-together triggers for the same
video are idempotent. -/
theorem claimC3 (s : ContentState) (c : TranscriptResult)
    (h1 : getVideoId s.url = s.currentVideoId)
    (h2 : s.transcriptCache = some c) :
    extractAndSendTranscriptStart s = (s, []) := by
  simp [extractAndSendTranscriptStart, h1, h2]

/-- Claim C3, witness: the no-op at a concrete cached state for video X. -/
theorem claimC3_witness :
    getVideoId stateCachedX.url = stateCachedX.currentVideoId ∧
    extractAndSendTranscriptStart stateCachedX = (stateCachedX, []) :=
  ⟨by decide, claimC3 stateCachedX resultX (by decide) rfl⟩

/-- Claim C8: a getTranscript request to the page context is answered from
the cache only — the state is unchanged, no fetch is started, exactly one
response is produced (never a hang), and the response is the cached result
when transcriptCache is non-null and the explicit unavailable object when it
is null. -/
theorem claimC8 (s : ContentState) :
    (step Event.query s).1 = s ∧
    fetchVids (step Event.query s).2 = [] ∧
    (step Event.query s).2 = [Action.respond (handleGetTranscript s)] ∧
    (s.transcriptCache = none →
      handleGetTranscript s =
        { success := false, data := none, error := some "No transcript available" }) ∧
    (∀ c, s.transcriptCache = some c →
      handleGetTranscript s = { success := true, data := some c, error := none }) := by
  refine ⟨rfl, rfl, rfl, fun h => ?_, fun c h => ?_⟩ <;>
    simp [handleGetTranscript, h]

/-- Claim C8, witness: the unavailable response at a concrete state with no
cached result. -/
theorem claimC8_witness :
    (step Event.query stateNoCache).1 = stateNoCache ∧
    (step Event.query stateNoCache).2 =
      [Action.respond
        { success := false, data := none, error := some "No transcript available" }] := by
  have h := claimC8 stateNoCache
  exact ⟨h.1, by rw [h.2.2.1, h.2.2.2.1 rfl]⟩

/-- Claim C10 (implicit): the content script caches the result of an
extraction whether it is a Success or a Failure; consequently, after a
failed extraction, a getTranscript request is answered with success true and
the cached Failure-tagged result as data — the top-level success flag of the
response does not imply the cached extraction succeeded. -/
theorem claimC10 (s : ContentState) (videoId : Option String)
    (r : TranscriptResult) :
    (extractionResolve videoId r s).1.transcriptCache = some r ∧
    (r.isSuccess = false →
      handleGetTranscript (extractionResolve videoId r s).1 =
        { success := true, data := some r, error := none }) := by
  exact ⟨rfl, fun _ => by simp [extractionResolve, handleGetTranscript]⟩

/-- Claim C10, witness: a concrete failed extraction is cached and then
served with a success-true envelope. -/
theorem claimC10_witness :
    (extractionResolve (some "X") (TranscriptResult.failure "No captions available")
        stateNoCache).1.transcriptCache =
      some (TranscriptResult.failure "No captions available") ∧
    handleGetTranscript
        (extractionResolve (some "X") (TranscriptResult.failure "No captions available")
          stateNoCache).1 =
      { success := true, data := some (TranscriptResult.failure "No captions available"),
        error := none } :=
  ⟨(claimC10 stateNoCache (some "X") _).1,
    (claimC10 stateNoCache (some "X") _).2 rfl⟩

/-! ## Claim C4: navigating away from a video page

The claim states that on a URL change to a non-qualifying page the content
script clears currentVideoId and transcriptCache, emits a noVideoPage
notification, and runs no extraction. The source clears the state and runs
no extraction, but its navigate-away branch sends no message at all: the
noVideoPage message kind is declared in WorkerMessageTypes and handled by
the side panel, yet no provided source ever emits it. -/

/-- Claim C4, counterexample: from a cached state for video X, a tick to the
YouTube home page clears the state, schedules no extraction and emits no
action at all — in particular no noVideoPage notification, contradicting the
claim. -/
theorem claimC4_counterexample :
    step (Event.tick urlHome) stateCachedX =
      ({ currentVideoId := none, transcriptCache := none, lastUrl := urlHome,
         url := urlHome, pending := 0, inflight := [] }, []) ∧
    Action.sendNoVideoPage ∉ (step (Event.tick urlHome) stateCachedX).2 := by
  decide

/-- Claim C4 as amended: on every URL change where the new URL no longer
qualifies as a video page, the content script clears currentVideoId and
transcriptCache and runs no extraction (the pending extraction count and the
in-flight list are untouched), but it emits no notification. -/
theorem claimC4_amended (s : ContentState) (u : Url)
    (hne : u ≠ s.lastUrl) (hnv : isYouTubeVideoPage u = false) :
    step (Event.tick u) s =
      ({ s with
          url := u
          lastUrl := u
          currentVideoId := none
          transcriptCache := none }, []) := by
  simp [step, observerTick, hne, hnv]

/-- Claim C4 as amended, witness: leaving YouTube entirely from a cached
state. -/
theorem claimC4_amended_witness :
    step (Event.tick urlGoogle) stateCachedX =
      ({ stateCachedX with
          url := urlGoogle
          lastUrl := urlGoogle
          currentVideoId := none
          transcriptCache := none }, []) :=
  claimC4_amended stateCachedX urlGoogle (by decide) (by decide)

/-! ## Claims about the background script -/

/-- Claim C5, counterexample: the transcriptError case of the background
listener does not touch the per-tab store. With tab 1 holding a successful
OLD result, processing a transcriptError report for tab 1 leaves the state
exactly unchanged (the stored entry is still the OLD success, no error is
recorded) and only forwards the error to the panel — contradicting the
claim that the stored state is set/replaced to record the error. -/
theorem claimC5_counterexample :
    stepBg (BgEvent.onMessage (some 1) none 0
        (BgMessage.transcriptError (some "network error"))) bgWithOld =
      (bgWithOld, [BgAction.forwardTranscriptError (some "network error")]) ∧
    bgWithOld.transcriptStore 1 = some resultOld ∧
    resultOld.isSuccess = true ∧
    resultOld.errorField = none :=
  ⟨rfl, rfl, rfl, rfl⟩

/-- Claim C5 as amended: on receipt of a transcriptError report the
background only best-effort forwards the error to the panel; the per-tab
stores are not mutated, so whatever was stored for the tab persists
unchanged (no error state is recorded and no auto-retry occurs) until a
later transcriptLoaded for that tab or the closing of the tab overwrites
it. -/
theorem claimC5_amended (sender activeTab : Option Nat) (now : Nat)
    (e : Option String) (bg : BackgroundState) :
    stepBg (BgEvent.onMessage sender activeTab now (BgMessage.transcriptError e)) bg =
      (bg, [BgAction.forwardTranscriptError e]) :=
  rfl

/-- Claim C6: when the background receives transcriptLoaded for a tab whose
previously stored videoId differs from the payload videoId and the tab has a
chat-history record, the stored transcript for that tab is replaced by the
payload, the chat history of the tab is deleted, the chat-history clearing
side effect fires for that tab exactly once, and the payload is forwarded to
the panel. -/
theorem claimC6 (bg : BackgroundState) (t : Nat)
    (prev payload : TranscriptResult) (hist : List ChatMessage)
    (hprev : bg.transcriptStore t = some prev)
    (hdiff : prev.videoIdField ≠ payload.videoIdField)
    (hhist : bg.chatHistoryStore t = some hist) :
    (stepBg (BgEvent.onMessage (some t) none 0
        (BgMessage.transcriptLoaded payload)) bg).1.transcriptStore t = some payload ∧
    (stepBg (BgEvent.onMessage (some t) none 0
        (BgMessage.transcriptLoaded payload)) bg).1.chatHistoryStore t = none ∧
    (stepBg (BgEvent.onMessage (some t) none 0
        (BgMessage.transcriptLoaded payload)) bg).2 =
      [BgAction.clearChatHistory t, BgAction.forwardTranscriptLoaded payload] ∧
    ((stepBg (BgEvent.onMessage (some t) none 0
        (BgMessage.transcriptLoaded payload)) bg).2.count
      (BgAction.clearChatHistory t)) = 1 := by
  have hcond : (bg.transcriptStore t).bind TranscriptResult.videoIdField ≠
      payload.videoIdField ∧ (bg.chatHistoryStore t).isSome = true := by
    constructor
    · rw [hprev]; exact hdiff
    · rw [hhist]; rfl
  simp only [stepBg, handleBgTranscriptLoaded, if_pos hcond]
  refine ⟨by simp [mapSet], by simp [mapDelete], trivial, ?_⟩
  simp [List.count_cons]

/-- Claim C6, witness: tab 3 transitions from OLD to NEW; the chat history
of tab 3 is cleared exactly once. -/
theorem claimC6_witness :
    (stepBg (BgEvent.onMessage (some 3) none 0
        (BgMessage.transcriptLoaded resultNew)) bgTab3).1.transcriptStore 3 = some resultNew ∧
    (stepBg (BgEvent.onMessage (some 3) none 0
        (BgMessage.transcriptLoaded resultNew)) bgTab3).1.chatHistoryStore 3 = none ∧
    (stepBg (BgEvent.onMessage (some 3) none 0
        (BgMessage.transcriptLoaded resultNew)) bgTab3).2 =
      [BgAction.clearChatHistory 3, BgAction.forwardTranscriptLoaded resultNew] ∧
    ((stepBg (BgEvent.onMessage (some 3) none 0
        (BgMessage.transcriptLoaded resultNew)) bgTab3).2.count
      (BgAction.clearChatHistory 3)) = 1 :=
  claimC6 bgTab3 3 resultOld resultNew chatOld rfl (by decide) rfl

/-! ## Claim C7: state of a closed tab -/

/-- A background event does not involve tab t: it is not a message sent by
tab t, and tab t is not the active tab when the message is handled (a closed
tab can be neither). Tab-removal events are unrestricted. -/
def tabAvoids (t : Nat) : BgEvent → Prop
  | .onMessage sender activeTab _ _ => sender ≠ some t ∧ activeTab ≠ some t
  | .tabRemoved _ => True

/-- Once both per-tab entries of tab t are absent, any trace of background
events that does not involve tab t keeps them absent. -/
theorem runBg_absent (t : Nat) :
    ∀ (events : List BgEvent) (bg : BackgroundState),
      (∀ e ∈ events, tabAvoids t e) →
      bg.transcriptStore t = none → bg.chatHistoryStore t = none →
      (runBg bg events).1.transcriptStore t = none ∧
        (runBg bg events).1.chatHistoryStore t = none := by
  intro events
  induction events with
  | nil => intro bg _ h1 h2; exact ⟨h1, h2⟩
  | cons e es ih =>
    intro bg havoid h1 h2
    have he := havoid e (List.mem_cons_self _ _)
    have hstep : (stepBg e bg).1.transcriptStore t = none ∧
        (stepBg e bg).1.chatHistoryStore t = none := by
      cases e with
      | onMessage sender activeTab now msg =>
        obtain ⟨hs, ha⟩ := he
        cases msg with
        | transcriptLoaded payload =>
          cases sender with
          | none => exact ⟨h1, h2⟩
          | some tq =>
            have htq : ¬t = tq := fun h => hs (congrArg some h.symm)
            simp only [stepBg, handleBgTranscriptLoaded]
            split <;> simp [mapSet, mapDelete, htq, h1, h2]
        | transcriptError error => exact ⟨h1, h2⟩
        | getTranscript => exact ⟨h1, h2⟩
        | sendChatMessage q =>
          cases activeTab with
          | none => exact ⟨h1, h2⟩
          | some tq =>
            have htq : ¬t = tq := fun h => ha (congrArg some h.symm)
            simp [stepBg, handleBgSendChatMessage, mapSet, htq, h1, h2]
        | chatResponse r =>
          cases activeTab with
          | none => exact ⟨h1, h2⟩
          | some tq =>
            have htq : ¬t = tq := fun h => ha (congrArg some h.symm)
            simp [stepBg, handleBgChatResponse, mapSet, htq, h1, h2]
      | tabRemoved tq =>
        simp only [stepBg, handleTabRemoved, mapDelete]
        constructor <;> split <;> simp [h1, h2]
    have ihr := ih (stepBg e bg).1
      (fun e' he' => havoid e' (List.mem_cons_of_mem _ he')) hstep.1 hstep.2
    simpa only [runBg] using ihr

/-- Claim C7: after the tab-closed event for tab t is processed, the Tab
State Store holds neither a transcript nor a chat history for t, this
remains true across every subsequent trace of events not involving t (a
closed tab sends no messages and is never the active tab), and every
subsequent query for tab t returns no state. -/
theorem claimC7 (t : Nat) (bg : BackgroundState) (events : List BgEvent)
    (havoid : ∀ e ∈ events, tabAvoids t e) :
    (stepBg (BgEvent.tabRemoved t) bg).1.transcriptStore t = none ∧
    (stepBg (BgEvent.tabRemoved t) bg).1.chatHistoryStore t = none ∧
    (runBg (stepBg (BgEvent.tabRemoved t) bg).1 events).1.transcriptStore t = none ∧
    (runBg (stepBg (BgEvent.tabRemoved t) bg).1 events).1.chatHistoryStore t = none ∧
    getTranscriptForCurrentTab (some t)
      (runBg (stepBg (BgEvent.tabRemoved t) bg).1 events).1 = none ∧
    getChatHistoryForCurrentTab (some t)
      (runBg (stepBg (BgEvent.tabRemoved t) bg).1 events).1 = [] := by
  have h1 : (stepBg (BgEvent.tabRemoved t) bg).1.transcriptStore t = none := by
    simp [stepBg, handleTabRemoved, mapDelete]
  have h2 : (stepBg (BgEvent.tabRemoved t) bg).1.chatHistoryStore t = none := by
    simp [stepBg, handleTabRemoved, mapDelete]
  obtain ⟨ha, hb⟩ := runBg_absent t events _ havoid h1 h2
  refine ⟨h1, h2, ha, hb, ?_, ?_⟩ <;>
    simp [getTranscriptForCurrentTab, getChatHistoryForCurrentTab, ha, hb]

/-- Claim C7, witness: tab 7 closes while holding a transcript and a chat
history; after a later message for tab 3, every query for tab 7 returns no
state. -/
theorem claimC7_witness :
    (stepBg (BgEvent.tabRemoved 7) bgTab7).1.transcriptStore 7 = none ∧
    (stepBg (BgEvent.tabRemoved 7) bgTab7).1.chatHistoryStore 7 = none ∧
    (runBg (stepBg (BgEvent.tabRemoved 7) bgTab7).1
      [BgEvent.onMessage (some 3) (some 3) 0
        (BgMessage.transcriptLoaded resultNew)]).1.transcriptStore 7 = none ∧
    (runBg (stepBg (BgEvent.tabRemoved 7) bgTab7).1
      [BgEvent.onMessage (some 3) (some 3) 0
        (BgMessage.transcriptLoaded resultNew)]).1.chatHistoryStore 7 = none ∧
    getTranscriptForCurrentTab (some 7)
      (runBg (stepBg (BgEvent.tabRemoved 7) bgTab7).1
        [BgEvent.onMessage (some 3) (some 3) 0
          (BgMessage.transcriptLoaded resultNew)]).1 = none ∧
    getChatHistoryForCurrentTab (some 7)
      (runBg (stepBg (BgEvent.tabRemoved 7) bgTab7).1
        [BgEvent.onMessage (some 3) (some 3) 0
          (BgMessage.transcriptLoaded resultNew)]).1 = [] := by
  refine claimC7 7 bgTab7 _ ?_
  intro e he
  simp only [List.mem_singleton] at he
  subst he
  exact ⟨by decide, by decide⟩

/-! ## Claim C9: the Track Selector prefers manual tracks -/

/-- The chosen of two candidates is one of the two. -/
theorem pickBetter_mem (b c : CaptionTrack) :
    pickBetter b c = b ∨ pickBetter b c = c := by
  unfold pickBetter
  split
  · exact Or.inr rfl
  · exact Or.inl rfl

/-- The rank of the chosen of two candidates is at most the rank of the
first. -/
theorem rank_pickBetter_le_left (b c : CaptionTrack) :
    trackRank (pickBetter b c) ≤ trackRank b := by
  unfold pickBetter
  split <;> omega

/-- The rank of the chosen of two candidates is at most the rank of the
second. -/
theorem rank_pickBetter_le_right (b c : CaptionTrack) :
    trackRank (pickBetter b c) ≤ trackRank c := by
  unfold pickBetter
  split <;> omega

/-- The selected track is one of the candidates. -/
theorem foldl_pickBetter_mem :
    ∀ (ts : List CaptionTrack) (t : CaptionTrack),
      ts.foldl pickBetter t ∈ t :: ts := by
  intro ts
  induction ts with
  | nil => intro t; simp
  | cons c cs ih =>
    intro t
    simp only [List.foldl_cons]
    have h := ih (pickBetter t c)
    rcases List.mem_cons.mp h with h1 | h1
    · rw [h1]
      rcases pickBetter_mem t c with h2 | h2 <;> rw [h2]
      · exact List.mem_cons_self _ _
      · exact List.mem_cons_of_mem _ (List.mem_cons_self _ _)
    · exact List.mem_cons_of_mem _ (List.mem_cons_of_mem _ h1)

/-- The selected track has minimal rank among the candidates. -/
theorem foldl_pickBetter_rank_le :
    ∀ (ts : List CaptionTrack) (t x : CaptionTrack), x ∈ t :: ts →
      trackRank (ts.foldl pickBetter t) ≤ trackRank x := by
  intro ts
  induction ts with
  | nil =>
    intro t x hx
    simp only [List.mem_singleton] at hx
    subst hx
    simp
  | cons c cs ih =>
    intro t x hx
    simp only [List.foldl_cons]
    rcases List.mem_cons.mp hx with h1 | h1
    · subst h1
      exact le_trans (ih (pickBetter x c) _ (List.mem_cons_self _ _))
        (rank_pickBetter_le_left x c)
    · rcases List.mem_cons.mp h1 with h2 | h2
      · subst h2
        exact le_trans (ih (pickBetter t x) _ (List.mem_cons_self _ _))
          (rank_pickBetter_le_right t x)
      · exact ih (pickBetter t c) x (List.mem_cons_of_mem _ h2)

/-- A manually-created track has rank at most 2. -/
theorem trackRank_manual_le (m : CaptionTrack) (h : m.isAutoGenerated = false) :
    trackRank m ≤ 2 := by
  unfold trackRank
  rw [h, if_neg Bool.false_ne_true]
  split_ifs <;> omega

/-- An auto-generated track has rank at least 3. -/
theorem trackRank_auto_ge (a : CaptionTrack) (h : a.isAutoGenerated = true) :
    3 ≤ trackRank a := by
  unfold trackRank
  rw [h, if_pos rfl]
  split_ifs <;> omega

/-- Claim C9: for every caption-track list containing at least one
manually-created track and at least one auto-generated track, the Track
Selector returns a manually-created track, regardless of input order. The
Selector is modelled from the spec ranking policy because its source file
youtubeTranscript.ts is not among the provided sources. -/
theorem claimC9 (l : List CaptionTrack) (m a : CaptionTrack)
    (hm : m ∈ l) (hman : m.isAutoGenerated = false)
    (ha : a ∈ l) (hauto : a.isAutoGenerated = true) :
    ∃ r, selectTrack l = some r ∧ r.isAutoGenerated = false := by
  cases l with
  | nil => cases hm
  | cons t ts =>
    refine ⟨ts.foldl pickBetter t, rfl, ?_⟩
    have hle : trackRank (ts.foldl pickBetter t) ≤ trackRank m :=
      foldl_pickBetter_rank_le ts t m hm
    have hm2 : trackRank m ≤ 2 := trackRank_manual_le m hman
    cases hres : (ts.foldl pickBetter t).isAutoGenerated with
    | false => rfl
    | true =>
      have := trackRank_auto_ge _ hres
      omega

/-- Claim C9, witness: with an auto-generated Spanish track listed before a
manual English track, the Selector still returns the manual one. -/
theorem claimC9_witness :
    ∃ r, selectTrack [trackEsAuto, trackEnManual] = some r ∧
      r.isAutoGenerated = false :=
  claimC9 [trackEsAuto, trackEnManual] trackEnManual trackEsAuto
    (by decide) rfl (by decide) rfl

/-! ## Small-step lemmas for the page context -/

theorem step_tick_same {u : Url} {s : ContentState} (h : u = s.lastUrl) :
    step (Event.tick u) s = ({ s with url := u }, []) := by
  simp only [step, observerTick, if_pos h]

theorem step_tick_video {u : Url} {s : ContentState} (h : ¬u = s.lastUrl)
    (hv : isYouTubeVideoPage u = true) :
    step (Event.tick u) s =
      ({ s with
          url := u
          lastUrl := u
          currentVideoId := none
          transcriptCache := none
          pending := s.pending + 1 }, []) := by
  simp only [step, observerTick, if_neg h, if_pos hv]

theorem step_tick_novideo {u : Url} {s : ContentState} (h : ¬u = s.lastUrl)
    (hv : ¬isYouTubeVideoPage u = true) :
    step (Event.tick u) s =
      ({ s with
          url := u
          lastUrl := u
          currentVideoId := none
          transcriptCache := none }, []) := by
  simp only [step, observerTick, if_neg h, if_neg hv]

theorem step_fire_zero {s : ContentState} (h : s.pending = 0) :
    step Event.fire s = (s, []) := by
  simp only [step]
  rw [h]

theorem step_fire_succ {s : ContentState} {n : Nat} (h : s.pending = n + 1) :
    step Event.fire s = extractAndSendTranscriptStart { s with pending := n } := by
  simp only [step]
  rw [h]

theorem step_resolve_some {s : ContentState} {i : Nat} {v : Option String}
    {result : TranscriptResult} (h : s.inflight[i]? = some v) :
    step (Event.resolve i result) s =
      extractionResolve v result { s with inflight := s.inflight.eraseIdx i } := by
  simp only [step]
  rw [h]

theorem step_resolve_none {s : ContentState} {i : Nat} {result : TranscriptResult}
    (h : s.inflight[i]? = none) :
    step (Event.resolve i result) s = (s, []) := by
  simp only [step]
  rw [h]

theorem step_query_eq (s : ContentState) :
    step Event.query s = (s, [Action.respond (handleGetTranscript s)]) := rfl

theorem extract_hit {s : ContentState}
    (h1 : getVideoId s.url = s.currentVideoId) (h2 : s.transcriptCache ≠ none) :
    extractAndSendTranscriptStart s = (s, []) := by
  simp [extractAndSendTranscriptStart, h1, h2]

theorem extract_miss {s : ContentState}
    (h : ¬(getVideoId s.url = s.currentVideoId ∧ s.transcriptCache ≠ none)) :
    extractAndSendTranscriptStart s =
      ({ s with inflight := s.inflight ++ [getVideoId s.url] },
        [Action.fetchStart (getVideoId s.url)]) := by
  simp only [extractAndSendTranscriptStart]
  rw [if_neg h]

theorem run_cons_fst (s : ContentState) (e : Event) (es : List Event) :
    (run s (e :: es)).1 = (run (step e s).1 es).1 := rfl

theorem run_cons_snd (s : ContentState) (e : Event) (es : List Event) :
    (run s (e :: es)).2 = (step e s).2 ++ (run (step e s).1 es).2 := rfl

theorem fetchVids_append (a b : List Action) :
    fetchVids (a ++ b) = fetchVids a ++ fetchVids b := by
  simp [fetchVids]

theorem countFetch_append (a b : List Action) :
    countFetch (a ++ b) = countFetch a + countFetch b := by
  simp [countFetch, fetchVids]

theorem countFetch_nil : countFetch ([] : List Action) = 0 := rfl

theorem fetchVids_extractionResolve (v : Option String) (r : TranscriptResult)
    (s : ContentState) : fetchVids (extractionResolve v r s).2 = [] := by
  cases r <;> rfl

theorem countFetch_extractionResolve (v : Option String) (r : TranscriptResult)
    (s : ContentState) : countFetch (extractionResolve v r s).2 = 0 := by
  cases r <;> rfl

/-! ## Claim C1: re-extraction and URL changes

States of the page context reachable while the location never changes from
the initial qualifying URL u0: either the single initial-load extraction
timeout is still pending (InvStart), or it has fired, after which the one
extraction for u0 is either in flight or resolved and cached (InvDone). -/

def InvStart (u0 : Url) (s : ContentState) : Prop :=
  s.url = u0 ∧ s.lastUrl = u0 ∧ s.pending = 1 ∧ s.currentVideoId = none ∧
    s.transcriptCache = none ∧ s.inflight = []

def InvDone (u0 : Url) (s : ContentState) : Prop :=
  s.url = u0 ∧ s.lastUrl = u0 ∧ s.pending = 0 ∧
    ((s.inflight = [getVideoId u0] ∧ s.currentVideoId = none ∧
        s.transcriptCache = none) ∨
      (s.inflight = [] ∧ s.currentVideoId = getVideoId u0 ∧
        s.transcriptCache ≠ none))

/-- After the single extraction has started, a constant-URL trace starts no
further fetch. -/
theorem c1_done (u0 : Url) :
    ∀ (events : List Event) (s : ContentState),
      (∀ u, Event.tick u ∈ events → u = u0) → InvDone u0 s →
      countFetch (run s events).2 = 0 ∧ InvDone u0 (run s events).1 := by
  intro events
  induction events with
  | nil => intro s _ hs; exact ⟨rfl, hs⟩
  | cons e es ih =>
    intro s hticks hs
    obtain ⟨hurl, hlast, hpend, hrest⟩ := hs
    have key : countFetch (step e s).2 = 0 ∧ InvDone u0 (step e s).1 := by
      cases e with
      | tick u =>
        have hu : u = u0 := hticks u (List.mem_cons_self _ _)
        rw [step_tick_same (by rw [hu, hlast])]
        exact ⟨rfl, hu, hlast, hpend, hrest⟩
      | fire =>
        rw [step_fire_zero hpend]
        exact ⟨rfl, hurl, hlast, hpend, hrest⟩
      | resolve i result =>
        rcases hrest with ⟨hinf, hcur, hcache⟩ | ⟨hinf, hcur, hcache⟩
        · cases i with
          | zero =>
            have hget : s.inflight[0]? = some (getVideoId u0) := by rw [hinf]; rfl
            rw [step_resolve_some hget]
            refine ⟨countFetch_extractionResolve _ _ _, hurl, hlast, hpend,
              Or.inr ⟨?_, rfl, ?_⟩⟩
            · show s.inflight.eraseIdx 0 = []
              rw [hinf]; rfl
            · simp [extractionResolve]
          | succ m =>
            have hget : s.inflight[m + 1]? = none := by rw [hinf]; rfl
            rw [step_resolve_none hget]
            exact ⟨rfl, hurl, hlast, hpend, Or.inl ⟨hinf, hcur, hcache⟩⟩
        · have hget : s.inflight[i]? = none := by rw [hinf]; simp
          rw [step_resolve_none hget]
          exact ⟨rfl, hurl, hlast, hpend, Or.inr ⟨hinf, hcur, hcache⟩⟩
      | query =>
        exact ⟨rfl, hurl, hlast, hpend, hrest⟩
    have ihr := ih (step e s).1
      (fun u hu => hticks u (List.mem_cons_of_mem _ hu)) key.2
    rw [run_cons_snd, run_cons_fst, countFetch_append, key.1, ihr.1]
    exact ⟨rfl, ihr.2⟩

/-- On a constant-URL trace from the freshly initialized state, at most one
fetch is ever started, and exactly one once the initial timeout fires. -/
theorem c1_start (u0 : Url) :
    ∀ (events : List Event) (s : ContentState),
      (∀ u, Event.tick u ∈ events → u = u0) → InvStart u0 s →
      countFetch (run s events).2 ≤ 1 ∧
        (Event.fire ∈ events → countFetch (run s events).2 = 1) := by
  intro events
  induction events with
  | nil =>
    intro s _ _
    exact ⟨Nat.zero_le 1, fun h => absurd h (List.not_mem_nil _)⟩
  | cons e es ih =>
    intro s hticks hs
    obtain ⟨hurl, hlast, hpend, hcur, hcache, hinf⟩ := hs
    have hticks' : ∀ u, Event.tick u ∈ es → u = u0 :=
      fun u hu => hticks u (List.mem_cons_of_mem _ hu)
    cases e with
    | tick u =>
      have hu : u = u0 := hticks u (List.mem_cons_self _ _)
      rw [run_cons_snd, step_tick_same (by rw [hu, hlast])]
      have ihr := ih ({ s with url := u }) hticks'
        ⟨hu, hlast, hpend, hcur, hcache, hinf⟩
      rw [show (({ s with url := u }, ([] : List Action)) : ContentState × List Action).2
            = [] from rfl]
      rw [show (({ s with url := u }, ([] : List Action)) : ContentState × List Action).1
            = { s with url := u } from rfl]
      rw [List.nil_append]
      refine ⟨ihr.1, fun hf => ihr.2 ?_⟩
      rcases List.mem_cons.mp hf with h1 | h1
      · exact Event.noConfusion h1
      · exact h1
    | fire =>
      rw [run_cons_snd, step_fire_succ hpend]
      have hmiss : ¬(getVideoId ({ s with pending := 0 }).url =
          ({ s with pending := 0 }).currentVideoId ∧
          ({ s with pending := 0 }).transcriptCache ≠ none) := by
        intro hcontra
        exact hcontra.2 hcache
      rw [extract_miss hmiss]
      have hdone : InvDone u0
          ({ { s with pending := 0 } with
              inflight := ({ s with pending := 0 }).inflight ++
                [getVideoId ({ s with pending := 0 }).url] }) := by
        refine ⟨hurl, hlast, rfl, Or.inl ⟨?_, hcur, hcache⟩⟩
        show s.inflight ++ [getVideoId s.url] = [getVideoId u0]
        rw [hinf, hurl]
        rfl
      have hrest := c1_done u0 es _ hticks' hdone
      rw [countFetch_append, hrest.1]
      exact ⟨le_refl 1, fun _ => rfl⟩
    | resolve i result =>
      have hget : s.inflight[i]? = none := by rw [hinf]; simp
      rw [run_cons_snd, step_resolve_none hget]
      have ihr := ih s hticks' ⟨hurl, hlast, hpend, hcur, hcache, hinf⟩
      rw [show ((s, ([] : List Action)) : ContentState × List Action).2 = [] from rfl]
      rw [show ((s, ([] : List Action)) : ContentState × List Action).1 = s from rfl]
      rw [List.nil_append]
      refine ⟨ihr.1, fun hf => ihr.2 ?_⟩
      rcases List.mem_cons.mp hf with h1 | h1
      · exact Event.noConfusion h1
      · exact h1
    | query =>
      rw [run_cons_snd, step_query_eq]
      have ihr := ih s hticks' ⟨hurl, hlast, hpend, hcur, hcache, hinf⟩
      rw [countFetch_append]
      rw [show countFetch [Action.respond (handleGetTranscript s)] = 0 from rfl]
      rw [Nat.zero_add]
      refine ⟨ihr.1, fun hf => ihr.2 ?_⟩
      rcases List.mem_cons.mp hf with h1 | h1
      · exact Event.noConfusion h1
      · exact h1

/-- Claim C1 as amended: the Extraction Coordinator keys re-extraction on
the full URL, not on the videoId. For every trace of mutation-observer
ticks in which the URL does not change between consecutive ticks (every
tick carries the initial qualifying URL), no re-extraction occurs: the
transcript fetch is invoked at most once, and exactly once as soon as the
initial-load timeout fires — once for the single distinct videoId. -/
theorem claimC1_amended (u0 : Url) (hq : isYouTubeVideoPage u0 = true)
    (events : List Event) (hticks : ∀ u, Event.tick u ∈ events → u = u0) :
    countFetch (run (initState u0) events).2 ≤ 1 ∧
      (Event.fire ∈ events → countFetch (run (initState u0) events).2 = 1) :=
  c1_start u0 events (initState u0) hticks
    ⟨rfl, rfl, by simp [initState, hq], rfl, rfl, rfl⟩

/-- Claim C1 as amended, witness: on the watch page for X with no further
navigation, firing the timeout and resolving the fetch yields exactly one
fetch invocation. -/
theorem claimC1_amended_witness :
    countFetch (run (initState urlWatchX)
      [Event.fire, Event.resolve 0 resultX]).2 ≤ 1 ∧
    countFetch (run (initState urlWatchX)
      [Event.fire, Event.resolve 0 resultX]).2 = 1 := by
  have h := claimC1_amended urlWatchX (by decide)
    [Event.fire, Event.resolve 0 resultX]
    (by intro u hu; simp at hu)
  exact ⟨h.1, h.2 (List.mem_cons_self _ _)⟩

/-- Claim C1, counterexample: a tick sequence on which the videoId never
changes (the URL gains only a timestamp parameter) yet the transcript fetch
for that single distinct videoId is invoked twice — the observer compares
full URLs, clears the cache, and re-extracts. This contradicts the claim
that the fetch is invoked exactly once per distinct videoId whenever the
videoId does not change across consecutive ticks. -/
theorem claimC1_counterexample :
    getVideoId urlWatchXT5 = getVideoId urlWatchX ∧
    getVideoId urlWatchX = some "X" ∧
    fetchVids (run (initState urlWatchX)
      [Event.fire, Event.resolve 0 resultX, Event.tick urlWatchXT5,
        Event.fire]).2 = [some "X", some "X"] := by
  decide

/-! ## Claim C2: rapid navigation A to B and back to A

Within the debounce window both navigation ticks precede the firing of the
scheduled extraction timeouts, so every extraction started after the final
tick reads the URL of A. InvA captures the states reachable after the final
tick to A: the location is fixed at A, every in-flight extraction is keyed
to the videoId of A, and the cache can only hold a result keyed to A.
SettledA states that either an extraction is still in flight or the state
has settled on a result for A. -/

def InvA (uA : Url) (s : ContentState) : Prop :=
  s.url = uA ∧ s.lastUrl = uA ∧
    (∀ v ∈ s.inflight, v = getVideoId uA) ∧
    (s.currentVideoId = none ∨ s.currentVideoId = getVideoId uA) ∧
    (s.transcriptCache ≠ none → s.currentVideoId = getVideoId uA)

def SettledA (uA : Url) (s : ContentState) : Prop :=
  s.inflight ≠ [] ∨
    (s.currentVideoId = getVideoId uA ∧ s.transcriptCache ≠ none)

/-- One step preserves InvA, starts fetches only for the videoId of A,
preserves SettledA, and a firing timeout establishes SettledA. -/
theorem c2_step (uA : Url) (e : Event) (s : ContentState)
    (htick : ∀ u, e = Event.tick u → u = uA) (hs : InvA uA s) :
    InvA uA (step e s).1 ∧
      (∀ v ∈ fetchVids (step e s).2, v = getVideoId uA) ∧
      (SettledA uA s → SettledA uA (step e s).1) ∧
      (e = Event.fire → 0 < s.pending → SettledA uA (step e s).1) ∧
      (e ≠ Event.fire → (step e s).1.pending = s.pending) := by
  obtain ⟨hurl, hlast, hinf, hcur, hcache⟩ := hs
  cases e with
  | tick u =>
    have hu : u = uA := htick u rfl
    rw [step_tick_same (by rw [hu, hlast])]
    refine ⟨⟨hu, hlast, hinf, hcur, hcache⟩, ?_, fun h => h, ?_, fun _ => rfl⟩
    · intro v hv; cases hv
    · intro h; exact Event.noConfusion h
  | fire =>
    cases hpend : s.pending with
    | zero =>
      rw [step_fire_zero hpend]
      refine ⟨⟨hurl, hlast, hinf, hcur, hcache⟩, ?_, fun h => h, ?_, fun _ => hpend⟩
      · intro v hv; cases hv
      · intro _ hlt; exact absurd hlt (Nat.lt_irrefl 0)
    | succ n =>
      rw [step_fire_succ hpend]
      by_cases hc : getVideoId ({ s with pending := n }).url =
          ({ s with pending := n }).currentVideoId ∧
          ({ s with pending := n }).transcriptCache ≠ none
      · rw [extract_hit hc.1 hc.2]
        have hset : SettledA uA ({ s with pending := n }) := by
          right
          have h1 : s.currentVideoId = getVideoId uA := hcache hc.2
          exact ⟨h1, hc.2⟩
        refine ⟨⟨hurl, hlast, hinf, hcur, hcache⟩, ?_, fun _ => hset,
          fun _ _ => hset, fun h => absurd rfl h⟩
        intro v hv; cases hv
      · rw [extract_miss hc]
        have hvid : getVideoId ({ s with pending := n } : ContentState).url =
            getVideoId uA := by rw [show ({ s with pending := n } :
              ContentState).url = s.url from rfl, hurl]
        constructor
        · refine ⟨hurl, hlast, ?_, hcur, hcache⟩
          intro v hv
          rcases List.mem_append.mp hv with h1 | h1
          · exact hinf v h1
          · rw [List.mem_singleton.mp h1, hvid]
        refine ⟨?_, ?_, ?_, fun h => absurd rfl h⟩
        · intro v hv
          rw [show fetchVids [Action.fetchStart (getVideoId
              ({ s with pending := n } : ContentState).url)] =
            [getVideoId ({ s with pending := n } : ContentState).url] from rfl]
            at hv
          rw [List.mem_singleton.mp hv, hvid]
        · intro _
          left
          exact fun h => List.cons_ne_nil _ _ (List.append_eq_nil.mp h).2
        · intro _ _
          left
          exact fun h => List.cons_ne_nil _ _ (List.append_eq_nil.mp h).2
  | resolve i result =>
    cases hget : s.inflight[i]? with
    | none =>
      rw [step_resolve_none hget]
      refine ⟨⟨hurl, hlast, hinf, hcur, hcache⟩, ?_, fun h => h, ?_, fun _ => rfl⟩
      · intro v hv; cases hv
      · intro h; exact Event.noConfusion h
    | some v =>
      rw [step_resolve_some hget]
      have hv : v = getVideoId uA := hinf v (List.getElem?_mem hget)
      have hsettled : SettledA uA (extractionResolve v result
          { s with inflight := s.inflight.eraseIdx i }).1 := by
        right
        constructor
        · show v = getVideoId uA
          exact hv
        · show (some result : Option TranscriptResult) ≠ none
          simp
      refine ⟨?_, ?_, fun _ => hsettled, ?_, ?_⟩
      · refine ⟨hurl, hlast, ?_, Or.inr hv, fun _ => hv⟩
        intro w hw
        have hsub : List.Sublist (s.inflight.eraseIdx i) s.inflight :=
          List.eraseIdx_sublist _ _
        exact hinf w (hsub.subset hw)
      · rw [fetchVids_extractionResolve]
        intro w hw; cases hw
      · intro h; exact Event.noConfusion h
      · intro _
        rfl
  | query =>
    rw [step_query_eq]
    refine ⟨⟨hurl, hlast, hinf, hcur, hcache⟩, ?_, fun h => h, ?_, fun _ => rfl⟩
    · intro v hv; cases hv
    · intro h; exact Event.noConfusion h

/-- A trace of events whose ticks all stay on A preserves InvA and SettledA,
starts fetches only for the videoId of A, and establishes SettledA once a
timeout fires while timeouts are pending. -/
theorem c2_run (uA : Url) :
    ∀ (events : List Event) (s : ContentState),
      (∀ u, Event.tick u ∈ events → u = uA) → InvA uA s →
      InvA uA (run s events).1 ∧
        (∀ v ∈ fetchVids (run s events).2, v = getVideoId uA) ∧
        (SettledA uA s → SettledA uA (run s events).1) ∧
        (0 < s.pending → Event.fire ∈ events → SettledA uA (run s events).1) := by
  intro events
  induction events with
  | nil =>
    intro s _ hs
    exact ⟨hs, fun v hv => absurd hv (List.not_mem_nil _), fun h => h,
      fun _ hf => absurd hf (List.not_mem_nil _)⟩
  | cons e es ih =>
    intro s hticks hs
    have hstep := c2_step uA e s
      (fun u hu => hticks u (hu ▸ List.mem_cons_self _ _)) hs
    have ihr := ih (step e s).1
      (fun u hu => hticks u (List.mem_cons_of_mem _ hu)) hstep.1
    rw [run_cons_fst, run_cons_snd]
    refine ⟨ihr.1, ?_, ?_, ?_⟩
    · intro v hv
      rw [fetchVids_append] at hv
      rcases List.mem_append.mp hv with h1 | h1
      · exact hstep.2.1 v h1
      · exact ihr.2.1 v h1
    · intro hset
      exact ihr.2.2.1 (hstep.2.2.1 hset)
    · intro hpos hf
      by_cases hfire : e = Event.fire
      · exact ihr.2.2.1 (hstep.2.2.2.1 hfire hpos)
      · have hpend : (step e s).1.pending = s.pending := hstep.2.2.2.2 hfire
        have hf' : Event.fire ∈ es := by
          rcases List.mem_cons.mp hf with h1 | h1
          · exact absurd h1.symm hfire
          · exact h1
        exact ihr.2.2.2 (hpend ▸ hpos) hf'

/-- The content script state on a watch page uA with the result rA cached
and no pending or in-flight work. -/
def readyState (uA : Url) (rA : TranscriptResult) : ContentState :=
  { currentVideoId := getVideoId uA, transcriptCache := some rA,
    lastUrl := uA, url := uA, pending := 0, inflight := [] }

/-- The state after two rapid navigation ticks: away to B, then back to A,
both before any scheduled timeout fires. -/
def afterNavBA (uA uB : Url) (rA : TranscriptResult) : ContentState :=
  (run (readyState uA rA) [Event.tick uB, Event.tick uA]).1

/-- Within the debounce window, the double navigation clears the cache and
leaves two pending extraction timeouts, with the location settled on A. -/
theorem afterNavBA_eq (uA uB : Url) (rA : TranscriptResult)
    (hB : isYouTubeVideoPage uB = true) (hA : isYouTubeVideoPage uA = true)
    (hne : uB ≠ uA) :
    afterNavBA uA uB rA =
      { currentVideoId := none, transcriptCache := none, lastUrl := uA,
        url := uA, pending := 2, inflight := [] } := by
  unfold afterNavBA
  rw [run_cons_fst, step_tick_video (s := readyState uA rA)
    (show ¬uB = (readyState uA rA).lastUrl from hne) hB]
  rw [run_cons_fst, step_tick_video (show ¬uA = uB from fun h => hne h.symm) hA]
  rfl

/-- Claim C2: for a rapid navigation sequence A to B and back to A within
the debounce window (both ticks precede the timeout firings in rest, and no
further navigation occurs), every transcript fetch started afterwards is for
the videoId of A — no extraction for B exists whose late resolution could
overwrite the state once the tick back to A has cleared the cache — the
cache can only ever hold a result keyed to A, and once a timeout has fired
and all in-flight extractions have resolved, the state has settled on
exactly one cached extraction result, keyed to the final video A. -/
theorem claimC2 (uA uB : Url) (rA : TranscriptResult) (rest : List Event)
    (hA : isYouTubeVideoPage uA = true) (hB : isYouTubeVideoPage uB = true)
    (hne : uB ≠ uA) (hticks : ∀ u, Event.tick u ∈ rest → u = uA) :
    (∀ v ∈ fetchVids (run (afterNavBA uA uB rA) rest).2, v = getVideoId uA) ∧
    ((run (afterNavBA uA uB rA) rest).1.currentVideoId = none ∨
      (run (afterNavBA uA uB rA) rest).1.currentVideoId = getVideoId uA) ∧
    ((run (afterNavBA uA uB rA) rest).1.transcriptCache ≠ none →
      (run (afterNavBA uA uB rA) rest).1.currentVideoId = getVideoId uA) ∧
    (Event.fire ∈ rest → (run (afterNavBA uA uB rA) rest).1.inflight = [] →
      (run (afterNavBA uA uB rA) rest).1.currentVideoId = getVideoId uA ∧
        (run (afterNavBA uA uB rA) rest).1.transcriptCache ≠ none) := by
  rw [afterNavBA_eq uA uB rA hB hA hne]
  have h := c2_run uA rest
    { currentVideoId := none, transcriptCache := none, lastUrl := uA,
      url := uA, pending := 2, inflight := [] }
    hticks
    ⟨rfl, rfl, fun v hv => absurd hv (List.not_mem_nil _), Or.inl rfl,
      fun hc => absurd rfl hc⟩
  refine ⟨h.2.1, h.1.2.2.2.1, h.1.2.2.2.2, ?_⟩
  intro hf hempty
  rcases h.2.2.2 (by exact Nat.zero_lt_two) hf with h1 | h1
  · exact absurd hempty h1
  · exact h1

/-- Claim C2, witness: navigate A to B to A, fire one timeout (which
extracts A), resolve it, fire the second timeout (a cache hit): the state
settles on the result for A and both fetch facts hold. -/
theorem claimC2_witness :
    (∀ v ∈ fetchVids (run (afterNavBA urlWatchA urlWatchB resultA)
      [Event.fire, Event.resolve 0 resultA, Event.fire]).2,
        v = getVideoId urlWatchA) ∧
    ((run (afterNavBA urlWatchA urlWatchB resultA)
      [Event.fire, Event.resolve 0 resultA, Event.fire]).1.currentVideoId =
        getVideoId urlWatchA) ∧
    ((run (afterNavBA urlWatchA urlWatchB resultA)
      [Event.fire, Event.resolve 0 resultA, Event.fire]).1.transcriptCache ≠
        none) := by
  have h := claimC2 urlWatchA urlWatchB resultA
    [Event.fire, Event.resolve 0 resultA, Event.fire]
    (by decide) (by decide) (by decide)
    (by intro u hu; simp at hu)
  have hfin := h.2.2.2 (List.mem_cons_self _ _) (by decide)
  exact ⟨h.1, hfin.1, hfin.2⟩

end AskTheVideo
